import Mathlib

/-!
Shallow embedding of the agentGCP-veille repository core, and verification of
the frozen claims C1..C10 against it.

Sources embedded:
  * `src/Agent-client/agent_client.py`  — intent classification
    (`classifier_question`), outbound invocation and response cleaning
    (`appeler_agent_specialise`).
  * `src/agent-fiscal/agent_fiscal_v2.py` — corpus cache
    (`charger_documents_depuis_gcs`), embedding cache (`obtenir_embedding`),
    cosine similarity (`calculer_similarite_cosinus`), semantic retrieval
    (`rechercher_documents_semantique`), context assembly
    (`construire_contexte` with `nettoyer_contenu`), and the question
    handler (`handle_question`).

Modelling conventions: external effectful calls (Vertex AI, GCS, Firestore,
HTTP) are oracles passed as parameters; process-global mutable state (caches)
is passed and returned explicitly; Python floats are modelled as real numbers
(timestamps, which are only compared, as rationals); Python strings are
modelled as Lean strings, with the operations re-implemented over the
character list so that they evaluate inside the kernel.  Python's `str.lower`
is modelled on ASCII letters (`Char.toLower`); all concrete inputs used in
the theorems below stay inside that fragment.
-/

/-! ## Python-like string primitives -/

/-- Python `str` whitespace (the ASCII characters recognised by `str.strip`,
`\s` and `' '.isspace`). -/
def estEspacePython (c : Char) : Bool :=
  c == ' ' || c == '\t' || c == '\n' || c == '\r' || c == '\x0b' || c == '\x0c'

/-- Does `p` occur at the head of `l`? (Python `startswith` on char lists.) -/
def listeCommencePar : List Char → List Char → Bool
  | [], _ => true
  | _ :: _, [] => false
  | a :: as, b :: bs => a == b && listeCommencePar as bs

/-- Does `p` occur somewhere inside `l`? (Python `in` on strings.) -/
def listeContient (p : List Char) : List Char → Bool
  | [] => listeCommencePar p []
  | c :: rest => listeCommencePar p (c :: rest) || listeContient p rest

/-- Python `sub in s`. -/
def pyContient (s sub : String) : Bool := listeContient sub.data s.data

/-- Python `s.startswith(pre)`. -/
def pyCommencePar (s pre : String) : Bool := listeCommencePar pre.data s.data

/-- Python `s.endswith(suf)`. -/
def pyFinitPar (s suf : String) : Bool := listeCommencePar suf.data.reverse s.data.reverse

/-- Python `s[n:]`. -/
def pyDepuis (s : String) (n : Nat) : String := ⟨s.data.drop n⟩

/-- Python `s[:n]` for `n ≥ 0`. -/
def pyJusqua (s : String) (n : Nat) : String := ⟨s.data.take n⟩

/-- Python `s[:-n]` for `n > 0` (empty whenever `len(s) ≤ n`). -/
def pySansFin (s : String) (n : Nat) : String := ⟨s.data.take (s.data.length - n)⟩

/-- Python `s.lower()`, restricted to ASCII case folding. -/
def pyMinuscules (s : String) : String := ⟨s.data.map Char.toLower⟩

/-- Drop leading Python whitespace. -/
def retireEspacesTete (l : List Char) : List Char := l.dropWhile estEspacePython

/-- Drop trailing Python whitespace. -/
def retireEspacesQueue (l : List Char) : List Char :=
  (l.reverse.dropWhile estEspacePython).reverse

/-- Python `s.strip()`. -/
def pyStrip (s : String) : String := ⟨retireEspacesQueue (retireEspacesTete s.data)⟩

/-! ## A JSON value type (for the payloads moved around by the client) -/

/-- JSON values, as produced by `response.json()` / consumed by `jsonify`.
Objects are association lists in insertion order, mirroring Python dicts
(whose keys are unique). -/
inductive JVal where
  | null
  | bool (b : Bool)
  | num (q : ℚ)
  | str (s : String)
  | arr (elems : List JVal)
  | obj (fields : List (String × JVal))

/-- A Python dict over JSON values. -/
abbrev Dict := List (String × JVal)

/-- Python `d.get(k)` / `k in d` (first binding wins; Python keys are unique). -/
def dictGet (d : Dict) (k : String) : Option JVal :=
  (d.find? (fun p => p.1 == k)).map Prod.snd

/-- Python `d[k] = v` for a key already present: every binding of `k` is
replaced in place, insertion order preserved. -/
def dictSet (d : Dict) (k : String) (v : JVal) : Dict :=
  d.map (fun p => if p.1 == k then (k, v) else p)

/-- Python `del d[k]`. -/
def dictDel (d : Dict) (k : String) : Dict :=
  d.filter (fun p => p.1 != k)

/-- Python truthiness of a JSON value (`bool(v)`). -/
def pyVrai : JVal → Bool
  | .null => false
  | .bool b => b
  | .num q => q != 0
  | .str s => !s.isEmpty
  | .arr l => !l.isEmpty
  | .obj l => !l.isEmpty

/-! ## Agent-client: configuration (`AGENTS_CONFIG`, agent_client.py:37-64) -/

/-- One entry of `AGENTS_CONFIG`. -/
structure AgentConfig where
  url : String
  agent_description : String
  requires_auth : Bool
  needs_company_info : Bool := false

/-- The agent registry of `agent_client.py`, lines 37-64. -/
def AGENTS_CONFIG : List (String × AgentConfig) :=
  [("fiscalite",
    { url := "https://us-west1-agent-gcp-f6005.cloudfunctions.net/agent-fiscal-v2"
      agent_description := "Questions sur la fiscalité (TVA, IS, IR, CFE, taxes, impôts)"
      requires_auth := false }),
   ("comptabilite",
    { url := "https://agent-accounting-planner-478570587937.us-west1.run.app"
      agent_description := "Questions sur la comptabilité, bilans, comptes"
      requires_auth := false }),
   ("ressources_humaines",
    { url := "https://agent-social-planner-478570587937.us-west1.run.app"
      agent_description := "Questions sur les RH, contrats, paie, social"
      requires_auth := false }),
   ("juridique",
    { url := "https://agent-juridique-478570587937.us-west1.run.app"
      agent_description := "Questions juridiques, droit des sociétés"
      requires_auth := true }),
   ("aides",
    { url := "https://agent-aides-478570587937.us-west1.run.app"
      agent_description := "Questions sur les aides publiques et subventions"
      requires_auth := true
      needs_company_info := true })]

/-! ## Agent-client: intent classification (`classifier_question`, lines 150-216) -/

/-- `any(word in question_lower for word in mots)`. -/
def unMotPresent (mots : List String) (texte : String) : Bool :=
  mots.any (fun m => pyContient texte m)

/-- Result of `classifier_question`, extended with the number of
`model.generate_content` invocations performed (the observable the claims
talk about). -/
structure ResultatClassification where
  agent : String
  confiance : ℚ
  appels_llm : Nat

/-- Shallow embedding of `classifier_question` (agent_client.py:150-216).
The Gemini call `model.generate_content(prompt)` is the oracle `llm`:
`some texte` is a successful response with text `texte`, `none` is the
exception branch.  The call is made unconditionally at line 162, before any
keyword matching, so `appels_llm = 1` on every path. -/
def classifier_question (llm : Option String) (question : String) :
    ResultatClassification :=
  match llm with
  | some texte =>
    let agent_cible := pyMinuscules (pyStrip texte)
    if (AGENTS_CONFIG.find? (fun p => p.1 == agent_cible)).isSome then
      ⟨agent_cible, 9/10, 1⟩
    else if agent_cible == "non_pertinent" then
      ⟨"non_pertinent", 8/10, 1⟩
    else
      let question_lower := pyMinuscules question
      if unMotPresent ["aide", "subvention", "financement", "bpi", "prêt",
          "crédit", "dispositif"] question_lower then
        ⟨"aides", 7/10, 1⟩
      else if unMotPresent ["juridique", "statut", "sas", "sarl", "eurl",
          "société", "contrat", "droit"] question_lower then
        ⟨"juridique", 7/10, 1⟩
      else if unMotPresent ["tva", "impôt", "is", "ir", "cfe", "taxe",
          "fiscal", "déclaration"] question_lower then
        ⟨"fiscalite", 7/10, 1⟩
      else if unMotPresent ["comptab", "bilan", "compte", "écriture",
          "amortissement"] question_lower then
        ⟨"comptabilite", 7/10, 1⟩
      else if unMotPresent ["rh", "salarié", "contrat travail", "paie",
          "congé", "embauche"] question_lower then
        ⟨"ressources_humaines", 7/10, 1⟩
      else
        ⟨"non_pertinent", 3/10, 1⟩
  | none =>
    let question_lower := pyMinuscules question
    if unMotPresent ["aide", "subvention", "financement"] question_lower then
      ⟨"aides", 6/10, 1⟩
    else if unMotPresent ["juridique", "statut", "sas", "sarl", "contrat"]
        question_lower then
      ⟨"juridique", 6/10, 1⟩
    else if unMotPresent ["tva", "impôt", "is", "ir", "fiscal"]
        question_lower then
      ⟨"fiscalite", 6/10, 1⟩
    else
      ⟨"non_pertinent", 1/5, 1⟩

/-- Modelled from the spec: the per-agent keyword sets of the rule scorer of
§4.5 (step 1).  `src/` contains no rules-first scorer, so the keyword sets
are taken from the keyword fallback of `classifier_question`
(agent_client.py:180-194), the only keyword rules in the repository. -/
def mots_cles_regles : List (String × List String) :=
  [("aides", ["aide", "subvention", "financement", "bpi", "prêt", "crédit",
    "dispositif"]),
   ("juridique", ["juridique", "statut", "sas", "sarl", "eurl", "société",
    "contrat", "droit"]),
   ("fiscalite", ["tva", "impôt", "is", "ir", "cfe", "taxe", "fiscal",
    "déclaration"]),
   ("comptabilite", ["comptab", "bilan", "compte", "écriture",
    "amortissement"]),
   ("ressources_humaines", ["rh", "salarié", "contrat travail", "paie",
    "congé", "embauche"])]

/-- Modelled from the spec: the agents whose keyword set hits the
lower-cased query (§4.5 step 1). -/
def agents_touches (question : String) : List String :=
  (mots_cles_regles.filter
    (fun p => unMotPresent p.2 (pyMinuscules question))).map Prod.fst

/-- Modelled from the spec: "keyword evidence is unambiguous" — exactly one
agent's keyword set hits the query, so the spec's rule confidence is maximal
(`rulesConfidence >= GOOD_THRESHOLD`) under any normalisation of the
hit-count scoring of §4.5. -/
def preuveReglesNonAmbigue (question : String) : Prop :=
  (agents_touches question).length = 1

/-- Claim C1 as stated: whenever the rule-based keyword evidence is
unambiguous, the classifier answers from the rules and never invokes the
external LLM classifier. -/
def AffirmationC1 : Prop :=
  ∀ (llm : Option String) (question : String),
    preuveReglesNonAmbigue question →
    (classifier_question llm question).appels_llm = 0

/-! ## Agent-client: response cleaning (`appeler_agent_specialise`, lines 280-335) -/

/-- The markdown-fence stripping applied to one text field
(agent_client.py:303-313): strip, drop a leading ```` ```json ````, drop a
leading ```` ``` ````, drop a trailing ```` ``` ````, strip again. -/
def retirerBalisesMarkdown (s : String) : String :=
  let texte := pyStrip s
  let texte := if pyCommencePar texte "```json" then pyDepuis texte 7 else texte
  let texte := if pyCommencePar texte "```" then pyDepuis texte 3 else texte
  let texte := if pyFinitPar texte "```" then pySansFin texte 3 else texte
  pyStrip texte

/-- The handoff-removal step (agent_client.py:288-295, re-run verbatim at
lines 297-300): when a `handoff` key is present and
`handoff.get("needed", False)` is falsy, the key is deleted.  `none` models
the `AttributeError` raised by `.get` when the `handoff` value is not a
dict (the outer `except Exception` of the caller turns it into an error
envelope). -/
def etapeHandoff (d : Dict) : Option Dict :=
  match dictGet d "handoff" with
  | none => some d
  | some (.obj h) =>
    if pyVrai ((dictGet h "needed").getD (.bool false)) then some d
    else some (dictDel d "handoff")
  | some _ => none

/-- The per-key fence-stripping step of the loop
`for key in ["reponse", "message"]` (agent_client.py:303-314): only applied
when the key is present with a string value. -/
def etapeChampTexte (d : Dict) (k : String) : Dict :=
  match dictGet d k with
  | some (.str s) => dictSet d k (.str (retirerBalisesMarkdown s))
  | _ => d

/-- The response-cleaning block of `appeler_agent_specialise`
(agent_client.py:284-314): handoff removal (twice — the "double
vérification" of lines 297-300), then fence stripping of the `reponse` and
`message` fields. -/
def nettoyer_reponse (data : Dict) : Option Dict := do
  let c1 ← etapeHandoff data
  let c2 ← etapeHandoff c1
  let c3 := etapeChampTexte c2 "reponse"
  some (etapeChampTexte c3 "message")

/-- `cleaned.get("sources", []) or cleaned.get("sources_officielles", [])`
(agent_client.py:317): Python `or` takes the first truthy operand. -/
def extraireSourcesReponse (c : Dict) : JVal :=
  let s1 := (dictGet c "sources").getD (.arr [])
  if pyVrai s1 then s1 else (dictGet c "sources_officielles").getD (.arr [])

/-! ## Agent-client: outbound invocation (`appeler_agent_specialise`, lines 219-371) -/

/-- The body the HTTP client hands back for a response: `response.json()`
either raises `ValueError` (`brut`, carrying `response.text`), parses to a
non-dict JSON value (`jsonNonDict`, carrying `str(data)`), or parses to a
dict. -/
inductive CorpsReponse where
  | brut (texte : String)
  | jsonNonDict (texte : String)
  | jsonDict (champs : Dict)

/-- Outcome of one `requests.post` / `authed_session.post` call. -/
inductive ReponseHTTP where
  | timeout
  | exception (message : String)
  | statut (code : Nat) (corps : CorpsReponse)

/-- Result of `appeler_agent_specialise`, extended with the number of HTTP
post calls actually issued. -/
structure ResultatAppel where
  resultat : Dict
  appels_http : Nat

/-- Shallow embedding of `appeler_agent_specialise`
(agent_client.py:219-371).  The HTTP stack is the oracle `http`, receiving
the request (url, payload) and the attempt index; `infos_entreprise` is the
dict returned by `recuperer_infos_entreprise` (empty on failure);
`session_ok` models `authed_session is not None`.  The function issues at
most one post: every branch of the source returns directly, there is no
retry loop. -/
def appeler_agent_specialise
    (http : String → Dict → Nat → ReponseHTTP)
    (infos_entreprise : Dict) (session_ok : Bool)
    (agent_name question : String) : ResultatAppel :=
  match (AGENTS_CONFIG.find? (fun p => p.1 == agent_name)).map Prod.snd with
  | none =>
    ⟨[("erreur", .str ("L'agent '" ++ agent_name ++
        "' n'est pas encore disponible.")),
      ("reponse", .str "Désolé, cette fonctionnalité n'est pas encore implémentée.")], 0⟩
  | some config =>
    let base_url := config.url
    let flask : Bool :=
      ["juridique", "aides", "comptabilite", "ressources_humaines"].contains agent_name
    let url :=
      if flask then
        (if pyFinitPar base_url "/query" then base_url else base_url ++ "/query")
      else base_url
    let payload : Dict :=
      if flask then
        let p := [("user_query", JVal.str question)]
        if config.needs_company_info && agent_name == "aides"
            && !infos_entreprise.isEmpty then
          p ++ [("company_info", .obj infos_entreprise)]
        else p
      else [("question", .str question)]
    if config.requires_auth && !session_ok then
      ⟨[("erreur", .str "Authentification non disponible"),
        ("reponse", .str "Impossible d'authentifier l'appel à l'agent sécurisé.")], 0⟩
    else
      match http url payload 0 with
      | .timeout =>
        ⟨[("erreur", .str "Timeout"),
          ("reponse", .str "La requête a pris trop de temps. Veuillez réessayer.")], 1⟩
      | .exception msg =>
        ⟨[("erreur", .str msg),
          ("reponse", .str "Désolé, une erreur technique est survenue.")], 1⟩
      | .statut code corps =>
        if code == 200 then
          match corps with
          | .brut texte => ⟨[("reponse", .str texte), ("sources", .arr [])], 1⟩
          | .jsonNonDict texte => ⟨[("reponse", .str texte), ("sources", .arr [])], 1⟩
          | .jsonDict data =>
            match nettoyer_reponse data with
            | none =>
              ⟨[("erreur", .str "AttributeError"),
                ("reponse", .str "Désolé, une erreur technique est survenue.")], 1⟩
            | some cleaned =>
              ⟨[("reponse", .obj cleaned),
                ("sources", extraireSourcesReponse cleaned),
                ("data_complete", .obj cleaned)], 1⟩
        else if code == 403 then
          ⟨[("erreur", .str "Accès refusé (403)"),
            ("reponse", .str "L'agent client n'a pas les permissions pour accéder à cet agent. Vérifiez les permissions IAM.")], 1⟩
        else if code == 401 then
          ⟨[("erreur", .str "Non autorisé (401)"),
            ("reponse", .str "Erreur d'authentification lors de l'appel à l'agent.")], 1⟩
        else
          ⟨[("erreur", .str ("Erreur de l'agent : " ++ toString code)),
            ("reponse", .str "Désolé, une erreur est survenue lors du traitement de votre demande.")], 1⟩

/-- Claim C2 as stated (its checkable core): on pure transport failures the
invoker retries — so with an always-timing-out transport every configured
agent sees at least a second post before the call gives up. -/
def AffirmationC2 : Prop :=
  ∀ (agent_name question : String) (http : String → Dict → Nat → ReponseHTTP)
    (infos : Dict) (session_ok : Bool),
    (AGENTS_CONFIG.find? (fun p => p.1 == agent_name)).isSome →
    (∀ u p i, http u p i = .timeout) →
    2 ≤ (appeler_agent_specialise http infos session_ok agent_name question).appels_http

/-! ## Agent-fiscal: constants (agent_fiscal_v2.py:32-41) -/

/-- `MAX_DOCUMENTS = 3`. -/
def MAX_DOCUMENTS : Nat := 3

/-- `MIN_SIMILARITY_SCORE = 0.3`. -/
noncomputable def MIN_SIMILARITY_SCORE : ℝ := 3/10

/-- `MAX_CONTEXT_LENGTH = 3000`. -/
def MAX_CONTEXT_LENGTH : Nat := 3000

/-- `CACHE_DURATION_SECONDS = 3600`. -/
def CACHE_DURATION_SECONDS : ℚ := 3600

/-! ## Agent-fiscal: documents and the corpus cache
(`charger_documents_depuis_gcs`, agent_fiscal_v2.py:73-111) -/

/-- A corpus document, as the JSON dicts loaded from GCS are used by the
fiscal agent: the content fields read by retrieval and context assembly,
plus the mutable annotations the code writes into the same dicts
(`score`, `score_base`, `score_type`; absent until written). -/
structure Document where
  titre_source : String := ""
  contenu : String := ""
  source_url : String := ""
  doc_type : String := "local"
  score : Option ℝ := none
  score_base : Option ℝ := none
  score_type : Option String := none

instance : Inhabited Document := ⟨{}⟩

/-- The module-level corpus cache: `_documents_cache` and
`_cache_timestamp` (agent_fiscal_v2.py:38-39). -/
structure CorpusState where
  documents_cache : List Document := []
  cache_timestamp : Option ℚ := none

/-- Outcome of the GCS refetch loop (lines 89-102): `ok` is a complete pass
over the bucket (per-blob parse failures already skipped by the inner
`try`), `echec` is an exception escaping to the outer `except` at line 108,
carrying the documents accumulated before the failure. -/
inductive ResultatGCS where
  | ok (docs : List Document)
  | echec (docs_partiels : List Document)

/-- Shallow embedding of `charger_documents_depuis_gcs`
(agent_fiscal_v2.py:73-111).  Returns the documents handed to the caller,
the new cache state, and whether a refetch was attempted.  The freshness
test mirrors the Python truthiness of line 80
(`if _documents_cache and _cache_timestamp`) followed by the TTL test of
line 81.  On refetch failure the function returns the local `documents`
list built so far (possibly empty) and leaves the cache untouched — it does
not serve the stale snapshot. -/
def charger_documents_depuis_gcs (etat : CorpusState) (now : ℚ)
    (gcs : ResultatGCS) : List Document × CorpusState × Bool :=
  let frais : Bool :=
    !etat.documents_cache.isEmpty &&
    (match etat.cache_timestamp with
     | none => false
     | some t => t != 0 && decide (now - t < CACHE_DURATION_SECONDS))
  if frais then (etat.documents_cache, etat, false)
  else
    match gcs with
    | .ok docs => (docs, ⟨docs, some now⟩, true)
    | .echec partiels => (partiels, etat, true)

/-- Claim C3 as stated (the part the code violates): when the refetch from
the external store fails, the stale cached snapshot is served whenever one
exists. -/
def AffirmationC3 : Prop :=
  ∀ (etat : CorpusState) (now : ℚ) (partiels : List Document),
    etat.documents_cache ≠ [] →
    (charger_documents_depuis_gcs etat now (.echec partiels)).1 =
      etat.documents_cache

/-! ## Agent-fiscal: the embedding cache (`obtenir_embedding`,
agent_fiscal_v2.py:114-131) -/

/-- The length normalisation of lines 122-123:
`texte[:2000] + " ... " + texte[-2000:]`. -/
def pyTronquer (texte : String) : String :=
  ⟨texte.data.take 2000 ++ (" ... ").data ++
    texte.data.drop (texte.data.length - 2000)⟩

/-- Python dict assignment `d[k] = v`: replace if present, else append. -/
def insertionCache {α : Type} (k : String) (v : α) (d : List (String × α)) :
    List (String × α) :=
  if (d.find? (fun p => p.1 == k)).isSome then
    d.map (fun p => if p.1 == k then (k, v) else p)
  else d ++ [(k, v)]

/-- Shallow embedding of `obtenir_embedding` (agent_fiscal_v2.py:114-131),
polymorphic in the vector payload (the function never inspects it).  The
provider call `_embedding_model.get_embeddings([texte])` is the oracle
`fournisseur` (`none` = exception).  Returns the value, the new cache and
the number of provider invocations.  Note the cache lookup at line 118 uses
the raw `texte`, while line 127 stores under the rebound (truncated)
`texte`. -/
def obtenir_embedding {α : Type} (fournisseur : String → Option α)
    (cache : List (String × α)) (texte : String) :
    Option α × List (String × α) × Nat :=
  match (cache.find? (fun p => p.1 == texte)).map Prod.snd with
  | some v => (some v, cache, 0)
  | none =>
    let texte := if 5000 < texte.length then pyTronquer texte else texte
    match fournisseur texte with
    | none => (none, cache, 1)
    | some v => (some v, insertionCache texte v cache, 1)

/-! ## Agent-fiscal: cosine similarity (`calculer_similarite_cosinus`,
agent_fiscal_v2.py:134-147) -/

/-- `np.dot(vec1, vec2)` for equal-length 1-D arrays. -/
noncomputable def sommeProduits (a b : List ℝ) : ℝ :=
  (List.zipWith (· * ·) a b).sum

/-- Sum of squares of the components. -/
noncomputable def sommeCarres (a : List ℝ) : ℝ :=
  (a.map (fun x => x ^ 2)).sum

/-- `np.linalg.norm(v)`. -/
noncomputable def norme (a : List ℝ) : ℝ := Real.sqrt (sommeCarres a)

/-- Shallow embedding of `calculer_similarite_cosinus`
(agent_fiscal_v2.py:134-147).  `np.dot` raises on 1-D shape mismatch, which
the `except` at line 145 turns into `0.0`; a zero norm on either side gives
`0.0` (line 141); otherwise `dot / (norm1 * norm2)`. -/
noncomputable def calculer_similarite_cosinus (v1 v2 : List ℝ) : ℝ :=
  if v1.length ≠ v2.length then 0
  else if norme v1 = 0 ∨ norme v2 = 0 then 0
  else sommeProduits v1 v2 / (norme v1 * norme v2)

/-! ## Agent-fiscal: semantic retrieval
(`rechercher_documents_semantique`, agent_fiscal_v2.py:150-193) -/

/-- The weighted representation of a document (line 172):
`f"{titre}. {titre}. {titre}. {contenu[:1000]}"`. -/
def texteEmbeddingDocument (d : Document) : String :=
  d.titre_source ++ ". " ++ d.titre_source ++ ". " ++ d.titre_source ++ ". " ++
    pyJusqua d.contenu 1000

/-- The sort key used at line 185 (`key=lambda x: x['score']`); every
document reaching the sort has its `score` set. -/
def scoreCle (d : Document) : ℝ := d.score.getD 0

/-- The in-place annotation the loop of lines 167-183 performs on a corpus
document: when its embedding succeeds and the score passes the threshold,
`doc['score']` and `doc['score_type']` are written into the shared dict;
otherwise the dict is left as it was. -/
noncomputable def annoterDocument (minScore : ℝ) (emb : String → Option (List ℝ))
    (q_embedding : List ℝ) (d : Document) : Document :=
  match emb (texteEmbeddingDocument d) with
  | none => d
  | some doc_emb =>
    let score := calculer_similarite_cosinus q_embedding doc_emb
    if minScore ≤ score then
      { d with score := some score, score_type := some "semantique" }
    else d

/-- The `docs_scores` list built by the loop of lines 167-183, in corpus
order: the annotated documents whose embedding succeeded and whose score
passes the threshold. -/
noncomputable def documentsRetenus (minScore : ℝ) (emb : String → Option (List ℝ))
    (q_embedding : List ℝ) (docs : List Document) : List Document :=
  docs.filterMap (fun d =>
    match emb (texteEmbeddingDocument d) with
    | none => none
    | some doc_emb =>
      let score := calculer_similarite_cosinus q_embedding doc_emb
      if minScore ≤ score then
        some { d with score := some score, score_type := some "semantique" }
      else none)

/-- `docs_scores.sort(key=lambda x: x['score'], reverse=True)` (line 185):
Python's sort is stable, `reverse=True` makes it stable-descending;
insertion sort with this relation computes exactly that ordering. -/
noncomputable def triParScore (l : List Document) : List Document :=
  List.insertionSort (fun a b => scoreCle b ≤ scoreCle a) l

/-- Shallow embedding of the body of `rechercher_documents_semantique`
(agent_fiscal_v2.py:150-193), parameterised by the threshold that the
source reads from the global `MIN_SIMILARITY_SCORE`.  The corpus
(`charger_documents_depuis_gcs()`, a global cache) is passed explicitly;
`emb` stands for `obtenir_embedding` over the process-global embedding
cache.  Returns the retrieval result and the corpus as left behind by the
loop's in-place annotations. -/
noncomputable def rechercherCore (minScore : ℝ) (emb : String → Option (List ℝ))
    (all_docs : List Document) (question : String) (max_docs : Nat) :
    List Document × List Document :=
  match emb question with
  | none => ([], all_docs)
  | some q_embedding =>
    if all_docs.isEmpty then ([], all_docs)
    else
      let docs_scores := documentsRetenus minScore emb q_embedding all_docs
      let resultats := (triParScore docs_scores).take max_docs
      (resultats, all_docs.map (annoterDocument minScore emb q_embedding))

/-- `rechercher_documents_semantique` with the source's global threshold. -/
noncomputable def rechercher_documents_semantique (emb : String → Option (List ℝ))
    (all_docs : List Document) (question : String)
    (max_docs : Nat := MAX_DOCUMENTS) : List Document × List Document :=
  rechercherCore MIN_SIMILARITY_SCORE emb all_docs question max_docs

/-- Claim C5 as stated: retrieval only reads the corpus snapshot — after
the call every document of the snapshot is unchanged. -/
def AffirmationC5 : Prop :=
  ∀ (emb : String → Option (List ℝ)) (docs : List Document)
    (question : String) (max_docs : Nat),
    (rechercher_documents_semantique emb docs question max_docs).2 = docs

/-! ## Agent-fiscal: content cleaning (`nettoyer_contenu`,
agent_fiscal_v2.py:196-211).  Each `re.sub` is realised as a left-to-right
scanner with Python's leftmost / greedy-with-backtracking match semantics;
the fuel argument (initialised to the input length, an upper bound on the
number of emitted or consumed positions) makes the recursion structural. -/

/-- A character matchable by `[^\s\)]` (the URL body class). -/
def caractereURL (c : Char) : Bool := !estEspacePython c && c != ')'

/-- `re.sub(r'https?://[^\s\)]+', '', texte)` (line 198): at each position,
a literal `https://` or `http://` scheme followed by at least one
URL-body character is deleted together with the maximal body run. -/
def enleverURLs : Nat → List Char → List Char
  | 0, l => l
  | _ + 1, [] => []
  | fuel + 1, c :: rest =>
    let apresSchema : Option (List Char) :=
      if listeCommencePar ("https://").data (c :: rest) then
        some ((c :: rest).drop 8)
      else if listeCommencePar ("http://").data (c :: rest) then
        some ((c :: rest).drop 7)
      else none
    match apresSchema with
    | some reste =>
      let corps := reste.takeWhile caractereURL
      if corps.isEmpty then c :: enleverURLs fuel rest
      else enleverURLs fuel (reste.drop corps.length)
    | none => c :: enleverURLs fuel rest

/-- `re.sub(r'\[([^\]]+)\]\([^)]*\)', r'\1', texte)` (line 199): a markdown
link is replaced by its label. -/
def enleverLiensMarkdown : Nat → List Char → List Char
  | 0, l => l
  | _ + 1, [] => []
  | fuel + 1, c :: rest =>
    if c == '[' then
      let etiquette := rest.takeWhile (fun d => d != ']')
      let rest2 := rest.drop etiquette.length
      match rest2 with
      | ']' :: '(' :: rest3 =>
        if etiquette.isEmpty then c :: enleverLiensMarkdown fuel rest
        else
          let url := rest3.takeWhile (fun d => d != ')')
          let rest4 := rest3.drop url.length
          match rest4 with
          | ')' :: rest5 => etiquette ++ enleverLiensMarkdown fuel rest5
          | _ => c :: enleverLiensMarkdown fuel rest
      | _ => c :: enleverLiensMarkdown fuel rest
    else c :: enleverLiensMarkdown fuel rest

/-- `re.sub(r' +', ' ', texte)` (line 200): collapse space runs. -/
def reduireEspaces : Nat → List Char → List Char
  | 0, l => l
  | _ + 1, [] => []
  | fuel + 1, c :: rest =>
    if c == ' ' then ' ' :: reduireEspaces fuel (rest.dropWhile (· == ' '))
    else c :: reduireEspaces fuel rest

/-- Length of the prefix of `ws` ending at its last newline. -/
def finDernierSaut (ws : List Char) : Nat :=
  ws.length - (ws.reverse.takeWhile (fun d => d != '\n')).length

/-- `re.sub(r'\n\s*\n\s*\n+', '\n\n', texte)` (line 201): with greedy
backtracking the match starting at a newline whose following whitespace run
contains at least two more newlines consumes up to the last newline of the
run, and is replaced by a blank line. -/
def reduireLignesVides : Nat → List Char → List Char
  | 0, l => l
  | _ + 1, [] => []
  | fuel + 1, c :: rest =>
    if c == '\n' then
      let ws := rest.takeWhile estEspacePython
      if 2 ≤ ws.count '\n' then
        '\n' :: '\n' :: reduireLignesVides fuel (rest.drop (finDernierSaut ws))
      else c :: reduireLignesVides fuel rest
    else c :: reduireLignesVides fuel rest

/-- Python `texte.rfind('.')`, as an optional index. -/
def indiceDernierPoint (l : List Char) : Option Nat :=
  match l.reverse.findIdx? (fun d => d == '.') with
  | some i => some (l.length - 1 - i)
  | none => none

/-- Shallow embedding of `nettoyer_contenu` (agent_fiscal_v2.py:196-211):
the four `re.sub` passes, then truncation to `max_len` preferring the last
sentence boundary when it lies past 70% of the limit (the float comparison
`point > max_len * 0.7` is exact over the rationals for the budgets used:
400, 800, 1000), else an ellipsis; finally `strip`. -/
def nettoyer_contenu (texte : String) (max_len : Nat := 1000) : String :=
  let l1 := enleverURLs texte.data.length texte.data
  let l2 := enleverLiensMarkdown l1.length l1
  let l3 := reduireEspaces l2.length l2
  let l4 := reduireLignesVides l3.length l3
  let t : List Char :=
    if max_len < l4.length then
      let coupe := l4.take max_len
      match indiceDernierPoint coupe with
      | some point =>
        if (7 * (max_len : ℚ)) / 10 < (point : ℚ) then coupe.take (point + 1)
        else coupe ++ ("...").data
      | none => coupe ++ ("...").data
    else l4
  pyStrip ⟨t⟩

/-! ## Agent-fiscal: context assembly (`construire_contexte`,
agent_fiscal_v2.py:214-241) -/

/-- The f-string of lines 232 and 236:
`f"[Doc {i}]\nTitre: {titre}\nURL: {url}\nContenu: {contenu_clean}\n"`. -/
def blocDocument (i : Nat) (titre url contenu_clean : String) : String :=
  "[Doc " ++ toString i ++ "]\nTitre: " ++ titre ++ "\nURL: " ++ url ++
    "\nContenu: " ++ contenu_clean ++ "\n"

/-- The accumulation loop of lines 222-239 (`i` counts from 1, `total` is
the running length): stop before a document once the budget is reached;
rebuild a document's block with the 400-character budget when the
800-character block would overflow the total. -/
def boucleContexte (maxTotal : Nat) : Nat → Nat → List Document → List String
  | _, _, [] => []
  | i, total, doc :: rest =>
    if maxTotal ≤ total then []
    else
      let titre := doc.titre_source
      let url := doc.source_url
      let contenu := doc.contenu
      let doc_text := blocDocument i titre url (nettoyer_contenu contenu 800)
      let doc_text :=
        if maxTotal < total + doc_text.length then
          blocDocument i titre url (nettoyer_contenu contenu 400)
        else doc_text
      doc_text :: boucleContexte maxTotal (i + 1) (total + doc_text.length) rest

/-- The body of `construire_contexte` (agent_fiscal_v2.py:214-241),
parameterised by the budget that the source reads from the global
`MAX_CONTEXT_LENGTH`: the sentinel for an empty ranked list, else the
joined blocks. -/
def construireContexteCore (maxTotal : Nat) (documents : List Document) : String :=
  if documents.isEmpty then "Aucun document."
  else String.intercalate "\n---\n" (boucleContexte maxTotal 1 0 documents)

/-- `construire_contexte` with the source's global budget. -/
def construire_contexte (documents : List Document) : String :=
  construireContexteCore MAX_CONTEXT_LENGTH documents

/-! ## Agent-fiscal: answer generation and the question handler
(`generer_reponse` lines 272-297, `extraire_sources` lines 300-310,
`handle_question` lines 894-951) -/

/-- Round to two decimals (`round(x, 2)`). -/
noncomputable def arrondiDeux (x : ℝ) : ℝ := (round (x * 100) : ℤ) / 100

/-- One entry of the `sources` list built by `extraire_sources`. -/
structure SourceReponse where
  titre : String
  url : String
  source_type : String
  score : ℝ

/-- Shallow embedding of `extraire_sources` (agent_fiscal_v2.py:300-310). -/
noncomputable def extraire_sources (documents : List Document) : List SourceReponse :=
  (documents.take 3).map (fun doc =>
    { titre := doc.titre_source
      url := doc.source_url
      source_type := doc.doc_type
      score := arrondiDeux (doc.score.getD 0) })

/-- Shallow embedding of `generer_reponse` (agent_fiscal_v2.py:272-297):
the Gemini call is the oracle `llm` (`none` = exception); the prompt is
opaque.  The question and context parameters fill the prompt template. -/
def generer_reponse (llm : Option String) (_question _contexte : String) : String :=
  match llm with
  | some texte => texte
  | none => "Désolé, erreur lors de la génération."

/-- The JSON payload `handle_question` returns with status 200:
`aucunDocument` is the "no documents" envelope of lines 906-912, `succes`
the envelope of lines 925-933. -/
inductive ReponseQuestion where
  | aucunDocument (question reponse : String) (sources : List SourceReponse)
      (documents_trouves : Nat)
  | succes (question reponse : String) (sources : List SourceReponse)
      (documents_trouves : Nat) (methode_recherche : String)
      (score_moyen meilleur_score : ℝ)

/-- Shallow embedding of the success path of `handle_question`
(agent_fiscal_v2.py:894-951): retrieval, then — only when documents were
found — context assembly, generation, source extraction and the response
envelope.  Returns the envelope and the number of `generer_reponse`
invocations (i.e. generation attempts). -/
noncomputable def handle_question (emb : String → Option (List ℝ))
    (all_docs : List Document) (llm : Option String) (question : String) :
    ReponseQuestion × Nat :=
  let docs := (rechercher_documents_semantique emb all_docs question MAX_DOCUMENTS).1
  if docs.isEmpty then
    (.aucunDocument question
      "## Aucun document\n\nDésolé, aucune information pertinente trouvée."
      [] 0, 0)
  else
    let contexte := construire_contexte docs
    let reponse := generer_reponse llm question contexte
    let sources := extraire_sources docs
    (.succes question reponse sources docs.length "semantique"
      (arrondiDeux ((docs.map scoreCle).sum / (docs.length : ℝ)))
      (arrondiDeux ((docs.headI).score.getD 0)), 1)

/-! ## Statements of the remaining claims under test -/

/-- Claim C7 as stated (the bounds part): for non-degenerate vectors the
cosine score lies in `[0,1]`. -/
def AffirmationC7 : Prop :=
  ∀ v1 v2 : List ℝ, norme v1 ≠ 0 → norme v2 ≠ 0 →
    0 ≤ calculer_similarite_cosinus v1 v2 ∧ calculer_similarite_cosinus v1 v2 ≤ 1

/-- Claim C8 as stated (the universal part): after normalization no text
field of the payload begins or ends with a code-fence marker. -/
def AffirmationC8 : Prop :=
  ∀ (d c : Dict) (k s : String),
    nettoyer_reponse d = some c → dictGet c k = some (.str s) →
    pyCommencePar s "```" = false ∧ pyFinitPar s "```" = false

/-- Claim C9 as stated: the response cleaning is idempotent. -/
def AffirmationC9 : Prop :=
  ∀ d : Dict, (nettoyer_reponse d).bind nettoyer_reponse = nettoyer_reponse d

/-- Every binding of key `k` in `d` carries the value `v`. -/
def valeursCle (d : Dict) (k : String) (v : JVal) : Prop :=
  ∀ p ∈ d, p.1 = k → p.2 = v

/-- The text field `k` of `c`, if present as a string, neither begins nor
ends with a code fence (the precondition under which a second cleaning pass
is the identity). -/
def champSansBalise (c : Dict) (k : String) : Bool :=
  match dictGet c k with
  | some (.str s) => !pyCommencePar s "```" && !pyFinitPar s "```"
  | _ => true

/-! ## Lemmas about `pyStrip` -/

theorem retireEspacesTete_idem (l : List Char) :
    retireEspacesTete (retireEspacesTete l) = retireEspacesTete l :=
  List.dropWhile_idempotent _ l

theorem retireEspacesQueue_idem (l : List Char) :
    retireEspacesQueue (retireEspacesQueue l) = retireEspacesQueue l := by
  unfold retireEspacesQueue
  rw [List.reverse_reverse, List.dropWhile_idempotent]

theorem retireEspacesQueue_prefixe (l : List Char) :
    l = retireEspacesQueue l ++ (l.reverse.takeWhile estEspacePython).reverse := by
  unfold retireEspacesQueue
  conv_lhs => rw [← List.reverse_reverse l,
    ← List.takeWhile_append_dropWhile (p := estEspacePython) (l := l.reverse)]
  rw [List.reverse_append]

theorem retireEspacesTete_de_queue (m : List Char)
    (h : retireEspacesTete m = m) :
    retireEspacesTete (retireEspacesQueue m) = retireEspacesQueue m := by
  cases hq : retireEspacesQueue m with
  | nil => simp [retireEspacesTete]
  | cons c cs =>
    have hm := retireEspacesQueue_prefixe m
    rw [hq] at hm
    have hc : estEspacePython c = false := by
      by_contra hcc
      rw [Bool.not_eq_false] at hcc
      have hdrop : retireEspacesTete m =
          retireEspacesTete (cs ++ (m.reverse.takeWhile estEspacePython).reverse) := by
        conv_lhs => rw [hm]
        simp [retireEspacesTete, List.dropWhile_cons, hcc]
      rw [h] at hdrop
      have hle : (retireEspacesTete
            (cs ++ (m.reverse.takeWhile estEspacePython).reverse)).length
          ≤ cs.length + (m.reverse.takeWhile estEspacePython).reverse.length := by
        simpa using (List.dropWhile_sublist
          (l := cs ++ (m.reverse.takeWhile estEspacePython).reverse)
          estEspacePython).length_le
      rw [← hdrop] at hle
      have hlen : m.length =
          cs.length + 1 + (m.reverse.takeWhile estEspacePython).reverse.length := by
        conv_lhs => rw [hm]
        simp
        ring
      omega
    rw [retireEspacesTete, List.dropWhile_cons, hc]
    simp

theorem pyStrip_idem (s : String) : pyStrip (pyStrip s) = pyStrip s := by
  unfold pyStrip
  rw [retireEspacesTete_de_queue _ (retireEspacesTete_idem s.data),
    retireEspacesQueue_idem]

/-! ## Lemmas about the fence-stripping step -/

theorem listeCommencePar_affaiblit (p q l : List Char)
    (h : listeCommencePar (p ++ q) l = true) : listeCommencePar p l = true := by
  induction p generalizing l with
  | nil => rfl
  | cons a as ih =>
    cases l with
    | nil => simp [listeCommencePar] at h
    | cons b bs =>
      simp only [List.cons_append, listeCommencePar, Bool.and_eq_true] at h ⊢
      exact ⟨h.1, ih bs h.2⟩

theorem retirerBalises_fixe (s : String) (h1 : pyStrip s = s)
    (h2 : pyCommencePar s "```" = false) (h3 : pyFinitPar s "```" = false) :
    retirerBalisesMarkdown s = s := by
  have h2j : pyCommencePar s "```json" = false := by
    by_contra hc
    rw [Bool.not_eq_false] at hc
    have : listeCommencePar (("```").data ++ ("json").data) s.data = true := hc
    rw [pyCommencePar] at h2
    rw [listeCommencePar_affaiblit _ _ _ this] at h2
    exact Bool.true_eq_false.mp h2
  unfold retirerBalisesMarkdown
  simp only [h1, h2j, h2, h3, Bool.false_eq_true, if_false]

theorem retirerBalises_strippe (s : String) :
    pyStrip (retirerBalisesMarkdown s) = retirerBalisesMarkdown s := by
  unfold retirerBalisesMarkdown
  exact pyStrip_idem _

/-! ## Lemmas about dict operations -/

theorem dictGet_del_self (d : Dict) (k : String) :
    dictGet (dictDel d k) k = none := by
  induction d with
  | nil => rfl
  | cons p rest ih =>
    by_cases h : p.1 = k
    · simp only [dictDel, List.filter_cons, h, bne_self_eq_false]
      exact ih
    · have hb : (p.1 != k) = true := bne_iff_ne.mpr h
      have hb2 : (p.1 == k) = false := beq_eq_false_iff_ne.mpr h
      simp only [dictDel, List.filter_cons, hb, if_true, dictGet, List.find?, hb2]
      exact ih

theorem dictGet_del_autre (d : Dict) (k k' : String) (h : k' ≠ k) :
    dictGet (dictDel d k) k' = dictGet d k' := by
  induction d with
  | nil => rfl
  | cons p rest ih =>
    by_cases hp : p.1 = k
    · have hb : (p.1 != k) = false := by simp [bne, hp]
      have hb2 : (p.1 == k') = false := beq_eq_false_iff_ne.mpr (hp ▸ (Ne.symm h))
      simp only [dictDel, List.filter_cons, hb, Bool.false_eq_true, if_false,
        dictGet, List.find?, hb2]
      exact ih
    · have hb : (p.1 != k) = true := bne_iff_ne.mpr hp
      by_cases hp' : p.1 = k'
      · have hb2 : (p.1 == k') = true := beq_iff_eq.mpr hp'
        simp [dictDel, List.filter_cons, hb, dictGet, List.find?, hb2]
      · have hb2 : (p.1 == k') = false := beq_eq_false_iff_ne.mpr hp'
        simp only [dictDel, List.filter_cons, hb, if_true, dictGet, List.find?, hb2]
        exact ih

theorem dictGet_set_autre (d : Dict) (k k' : String) (v : JVal) (h : k' ≠ k) :
    dictGet (dictSet d k v) k' = dictGet d k' := by
  induction d with
  | nil => rfl
  | cons p rest ih =>
    by_cases hp : p.1 = k
    · have hb : (p.1 == k) = true := beq_iff_eq.mpr hp
      have hk : (k == k') = false := beq_eq_false_iff_ne.mpr (Ne.symm h)
      have hb2 : (p.1 == k') = false := beq_eq_false_iff_ne.mpr (hp ▸ Ne.symm h)
      simp only [dictSet, List.map_cons, hb, if_true, dictGet, List.find?, hk, hb2]
      exact ih
    · have hb : (p.1 == k) = false := beq_eq_false_iff_ne.mpr hp
      by_cases hp' : p.1 = k'
      · have hb2 : (p.1 == k') = true := beq_iff_eq.mpr hp'
        simp [dictSet, List.map_cons, hb, dictGet, List.find?, hb2]
      · have hb2 : (p.1 == k') = false := beq_eq_false_iff_ne.mpr hp'
        simp only [dictSet, List.map_cons, hb, Bool.false_eq_true, if_false,
          dictGet, List.find?, hb2]
        exact ih

theorem dictGet_set_some (d : Dict) (k : String) (v w : JVal)
    (h : dictGet d k = some w) : dictGet (dictSet d k v) k = some v := by
  induction d with
  | nil => simp [dictGet] at h
  | cons p rest ih =>
    by_cases hp : p.1 = k
    · have hb : (p.1 == k) = true := beq_iff_eq.mpr hp
      simp [dictSet, List.map_cons, hb, dictGet, List.find?]
    · have hb : (p.1 == k) = false := beq_eq_false_iff_ne.mpr hp
      simp only [dictGet, List.find?, hb] at h
      simp only [dictSet, List.map_cons, hb, Bool.false_eq_true, if_false,
        dictGet, List.find?]
      exact ih h

theorem valeursCle_set (d : Dict) (k : String) (v : JVal) :
    valeursCle (dictSet d k v) k v := by
  intro p hp hk
  rcases List.mem_map.mp hp with ⟨q, _, hq⟩
  by_cases h : q.1 = k
  · have hb : (q.1 == k) = true := beq_iff_eq.mpr h
    rw [← hq]
    simp [hb]
  · have hb : (q.1 == k) = false := beq_eq_false_iff_ne.mpr h
    rw [← hq] at hk ⊢
    simp only [hb, Bool.false_eq_true, if_false] at hk ⊢
    exact absurd hk h

theorem valeursCle_set_autre (d : Dict) (k k' : String) (v w : JVal)
    (hk : k ≠ k') (h : valeursCle d k v) : valeursCle (dictSet d k' w) k v := by
  intro p hp hpk
  rcases List.mem_map.mp hp with ⟨q, hqd, hq⟩
  by_cases hqk : q.1 = k'
  · have hb : (q.1 == k') = true := beq_iff_eq.mpr hqk
    rw [← hq] at hpk
    simp only [hb, if_true] at hpk
    exact absurd hpk (Ne.symm hk)
  · have hb : (q.1 == k') = false := beq_eq_false_iff_ne.mpr hqk
    rw [← hq] at hpk ⊢
    simp only [hb, Bool.false_eq_true, if_false] at hpk ⊢
    exact h q hqd hpk

theorem dictSet_fixe (d : Dict) (k : String) (v : JVal)
    (h : valeursCle d k v) : dictSet d k v = d := by
  unfold dictSet
  conv_rhs => rw [← List.map_id d]
  refine List.map_congr_left (fun p hp => ?_)
  by_cases hpk : p.1 = k
  · have hb : (p.1 == k) = true := beq_iff_eq.mpr hpk
    simp only [hb, if_true, id]
    have := h p hp hpk
    rw [← hpk, ← this]
  · have hb : (p.1 == k) = false := beq_eq_false_iff_ne.mpr hpk
    simp [hb]

/-! ## Lemmas about the cleaning steps -/

theorem etapeHandoff_cas (d c : Dict) (h : etapeHandoff d = some c) :
    c = d ∨ c = dictDel d "handoff" := by
  unfold etapeHandoff at h
  split at h
  · exact Or.inl (Option.some.inj h).symm
  · split at h
    · exact Or.inl (Option.some.inj h).symm
    · exact Or.inr (Option.some.inj h).symm
  · exact absurd h (by simp)

theorem etapeHandoff_apres (d c : Dict) (h : etapeHandoff d = some c) :
    dictGet c "handoff" = none ∨
      ∃ hh, dictGet c "handoff" = some (.obj hh) ∧
        pyVrai ((dictGet hh "needed").getD (.bool false)) = true := by
  unfold etapeHandoff at h
  split at h
  · next hg => exact Or.inl ((Option.some.inj h) ▸ hg)
  · next hh hg =>
      split at h
      · next ht => exact Or.inr ⟨hh, (Option.some.inj h) ▸ hg, ht⟩
      · next ht => exact Or.inl ((Option.some.inj h) ▸ dictGet_del_self d "handoff")
  · next => exact absurd h (by simp)

theorem etapeHandoff_de_etat (c : Dict)
    (h : dictGet c "handoff" = none ∨
      ∃ hh, dictGet c "handoff" = some (.obj hh) ∧
        pyVrai ((dictGet hh "needed").getD (.bool false)) = true) :
    etapeHandoff c = some c := by
  unfold etapeHandoff
  rcases h with h | ⟨hh, hg, ht⟩
  · rw [h]
  · rw [hg]
    show (if pyVrai ((dictGet hh "needed").getD (.bool false)) = true then some c
        else some (dictDel c "handoff")) = some c
    rw [if_pos ht]

theorem etapeHandoff_fixe (d c : Dict) (h : etapeHandoff d = some c) :
    etapeHandoff c = some c :=
  etapeHandoff_de_etat c (etapeHandoff_apres d c h)

theorem etapeChampTexte_get_autre (d : Dict) (k k' : String) (h : k' ≠ k) :
    dictGet (etapeChampTexte d k) k' = dictGet d k' := by
  unfold etapeChampTexte
  cases hg : dictGet d k with
  | none => rfl
  | some v =>
    cases v with
    | str s => exact dictGet_set_autre d k k' _ h
    | null => rfl
    | bool b => rfl
    | num q => rfl
    | arr l => rfl
    | obj o => rfl

theorem etapeChampTexte_identite (c : Dict) (k : String)
    (h : ∀ s, dictGet c k = some (.str s) →
      retirerBalisesMarkdown s = s ∧ valeursCle c k (.str s)) :
    etapeChampTexte c k = c := by
  unfold etapeChampTexte
  cases hg : dictGet c k with
  | none => rfl
  | some v =>
    cases v with
    | str s =>
      rcases h s hg with ⟨hret, hval⟩
      show dictSet c k (JVal.str (retirerBalisesMarkdown s)) = c
      rw [hret]
      exact dictSet_fixe c k (.str s) hval
    | null => rfl
    | bool b => rfl
    | num q => rfl
    | arr l => rfl
    | obj o => rfl

theorem etapeChampTexte_absent (d : Dict) (k : String)
    (h : dictGet d k = none) : etapeChampTexte d k = d := by
  unfold etapeChampTexte
  rw [h]

theorem etapeChampTexte_str (d : Dict) (k s : String)
    (h : dictGet d k = some (.str s)) :
    etapeChampTexte d k = dictSet d k (.str (retirerBalisesMarkdown s)) := by
  unfold etapeChampTexte
  rw [h]

theorem etapeChampTexte_non_str (d : Dict) (k : String) (v : JVal)
    (h : dictGet d k = some v) (hv : ∀ s, v ≠ .str s) :
    etapeChampTexte d k = d := by
  unfold etapeChampTexte
  rw [h]
  cases v with
  | str s => exact absurd rfl (hv s)
  | null => rfl
  | bool b => rfl
  | num q => rfl
  | arr l => rfl
  | obj o => rfl

theorem valeursCle_champTexte (d : Dict) (k k' : String) (v : JVal)
    (hk : k ≠ k') (h : valeursCle d k v) :
    valeursCle (etapeChampTexte d k') k v := by
  cases hg : dictGet d k' with
  | none => rw [etapeChampTexte_absent d k' hg]; exact h
  | some w =>
    cases w with
    | str s =>
      rw [etapeChampTexte_str d k' s hg]
      exact valeursCle_set_autre d k k' v _ hk h
    | null => rw [etapeChampTexte_non_str d k' _ hg (by intro s hs; cases hs)]; exact h
    | bool b => rw [etapeChampTexte_non_str d k' _ hg (by intro s hs; cases hs)]; exact h
    | num q => rw [etapeChampTexte_non_str d k' _ hg (by intro s hs; cases hs)]; exact h
    | arr l => rw [etapeChampTexte_non_str d k' _ hg (by intro s hs; cases hs)]; exact h
    | obj o => rw [etapeChampTexte_non_str d k' _ hg (by intro s hs; cases hs)]; exact h

theorem nettoyer_reponse_absent (d : Dict) (h : etapeHandoff d = none) :
    nettoyer_reponse d = none := by
  unfold nettoyer_reponse
  rw [h]
  rfl

theorem nettoyer_reponse_via (d c1 : Dict) (h : etapeHandoff d = some c1) :
    nettoyer_reponse d =
      some (etapeChampTexte (etapeChampTexte c1 "reponse") "message") := by
  have h2 := etapeHandoff_fixe d c1 h
  unfold nettoyer_reponse
  rw [h]
  show (etapeHandoff c1).bind
    (fun c2 => some (etapeChampTexte (etapeChampTexte c2 "reponse") "message")) = _
  rw [h2]
  rfl

theorem passe_champ_fixe (cPre c : Dict) (k : String)
    (hgets : dictGet c k = dictGet (etapeChampTexte cPre k) k)
    (hvals : ∀ v, valeursCle (etapeChampTexte cPre k) k v → valeursCle c k v)
    (hfence : champSansBalise c k = true) :
    etapeChampTexte c k = c := by
  cases hg1 : dictGet cPre k with
  | none =>
    exact etapeChampTexte_absent c k
      (by rw [hgets, etapeChampTexte_absent cPre k hg1, hg1])
  | some v =>
    cases v with
    | str s =>
      have hc3 := etapeChampTexte_str cPre k s hg1
      have hval3 : valeursCle (etapeChampTexte cPre k) k
          (.str (retirerBalisesMarkdown s)) := by
        rw [hc3]; exact valeursCle_set _ _ _
      have hgetc : dictGet c k = some (.str (retirerBalisesMarkdown s)) := by
        rw [hgets, hc3]; exact dictGet_set_some _ _ _ _ hg1
      have hfr : pyCommencePar (retirerBalisesMarkdown s) "```" = false ∧
          pyFinitPar (retirerBalisesMarkdown s) "```" = false := by
        unfold champSansBalise at hfence
        rw [hgetc] at hfence
        simp only [Bool.and_eq_true, Bool.not_eq_true'] at hfence
        exact hfence
      have hfixe : retirerBalisesMarkdown (retirerBalisesMarkdown s) =
          retirerBalisesMarkdown s :=
        retirerBalises_fixe _ (retirerBalises_strippe s) hfr.1 hfr.2
      apply etapeChampTexte_identite
      intro s0 hs0
      rw [hgetc] at hs0
      have hs0' : retirerBalisesMarkdown s = s0 := JVal.str.inj (Option.some.inj hs0)
      rw [← hs0']
      exact ⟨hfixe, hvals _ hval3⟩
    | null =>
      exact etapeChampTexte_non_str c k _
        (by rw [hgets, etapeChampTexte_non_str cPre k _ hg1 (fun s hs => by cases hs)]
            exact hg1)
        (fun s hs => by cases hs)
    | bool b =>
      exact etapeChampTexte_non_str c k _
        (by rw [hgets, etapeChampTexte_non_str cPre k _ hg1 (fun s hs => by cases hs)]
            exact hg1)
        (fun s hs => by cases hs)
    | num q =>
      exact etapeChampTexte_non_str c k _
        (by rw [hgets, etapeChampTexte_non_str cPre k _ hg1 (fun s hs => by cases hs)]
            exact hg1)
        (fun s hs => by cases hs)
    | arr l =>
      exact etapeChampTexte_non_str c k _
        (by rw [hgets, etapeChampTexte_non_str cPre k _ hg1 (fun s hs => by cases hs)]
            exact hg1)
        (fun s hs => by cases hs)
    | obj o =>
      exact etapeChampTexte_non_str c k _
        (by rw [hgets, etapeChampTexte_non_str cPre k _ hg1 (fun s hs => by cases hs)]
            exact hg1)
        (fun s hs => by cases hs)

/-! ## Lemmas about the score sort -/

theorem triParScore_trie (l : List Document) :
    List.Sorted (fun a b => scoreCle b ≤ scoreCle a) (triParScore l) := by
  haveI : IsTotal Document (fun a b => scoreCle b ≤ scoreCle a) :=
    ⟨fun a b => le_total _ _⟩
  haveI : IsTrans Document (fun a b => scoreCle b ≤ scoreCle a) :=
    ⟨fun _ _ _ h1 h2 => le_trans h2 h1⟩
  exact List.sorted_insertionSort _ _

theorem triParScore_perm (l : List Document) : (triParScore l).Perm l :=
  List.perm_insertionSort _ _

theorem triParScore_stable (l : List Document) (v : ℝ) :
    (triParScore l).filter (fun d => decide (scoreCle d = v)) =
      l.filter (fun d => decide (scoreCle d = v)) := by
  have hpair : (l.filter (fun d => decide (scoreCle d = v))).Pairwise
      (fun a b => scoreCle b ≤ scoreCle a) := by
    apply List.pairwise_of_forall_mem_list
    intro a ha b hb
    have hav : scoreCle a = v := of_decide_eq_true (List.mem_filter.mp ha).2
    have hbv : scoreCle b = v := of_decide_eq_true (List.mem_filter.mp hb).2
    rw [hav, hbv]
  have hsub : List.Sublist (l.filter (fun d => decide (scoreCle d = v)))
      (triParScore l) :=
    List.sublist_insertionSort hpair (List.filter_sublist l)
  have hperm : (l.filter (fun d => decide (scoreCle d = v))).Perm
      ((triParScore l).filter (fun d => decide (scoreCle d = v))) :=
    ((triParScore_perm l).symm).filter _
  have hsub2 : List.Sublist (l.filter (fun d => decide (scoreCle d = v)))
      ((triParScore l).filter (fun d => decide (scoreCle d = v))) := by
    have hfil := hsub.filter (fun d => decide (scoreCle d = v))
    rwa [List.filter_eq_self.mpr (fun x hx => (List.mem_filter.mp hx).2)] at hfil
  exact (hsub2.eq_of_length hperm.length_eq).symm

/-! ## Cosine similarity: bounds and symmetry -/

theorem sommeCarres_nonneg (a : List ℝ) : 0 ≤ sommeCarres a := by
  unfold sommeCarres
  induction a with
  | nil => simp
  | cons x xs ih =>
    simp only [List.map_cons, List.sum_cons]
    exact add_nonneg (sq_nonneg x) ih

theorem norme_nonneg (a : List ℝ) : 0 ≤ norme a := Real.sqrt_nonneg _

theorem etapeCauchySchwarz (x y A B : ℝ) (hA : 0 ≤ A) (hB : 0 ≤ B) :
    |x| * |y| + Real.sqrt A * Real.sqrt B ≤
      Real.sqrt (x ^ 2 + A) * Real.sqrt (y ^ 2 + B) := by
  rw [← Real.sqrt_mul (show (0:ℝ) ≤ x ^ 2 + A by positivity) (y ^ 2 + B)]
  apply (Real.le_sqrt (by positivity) (by positivity)).mpr
  nlinarith [two_mul_le_add_sq (|x| * Real.sqrt B) (|y| * Real.sqrt A),
    Real.sq_sqrt hA, Real.sq_sqrt hB, sq_abs x, sq_abs y,
    Real.sqrt_nonneg A, Real.sqrt_nonneg B, abs_nonneg x, abs_nonneg y,
    mul_nonneg (abs_nonneg x) (abs_nonneg y),
    mul_nonneg (Real.sqrt_nonneg A) (Real.sqrt_nonneg B)]

theorem abs_sommeProduits_le (a b : List ℝ) :
    |sommeProduits a b| ≤ norme a * norme b := by
  induction a generalizing b with
  | nil =>
    simp only [sommeProduits, List.zipWith_nil_left, List.sum_nil, abs_zero]
    exact mul_nonneg (norme_nonneg _) (norme_nonneg _)
  | cons x xs ih =>
    cases b with
    | nil =>
      simp only [sommeProduits, List.zipWith_nil_right, List.sum_nil, abs_zero]
      exact mul_nonneg (norme_nonneg _) (norme_nonneg _)
    | cons y ys =>
      have h1 : sommeProduits (x :: xs) (y :: ys) = x * y + sommeProduits xs ys := by
        simp [sommeProduits]
      have h2 : norme (x :: xs) = Real.sqrt (x ^ 2 + sommeCarres xs) := by
        simp [norme, sommeCarres]
      have h3 : norme (y :: ys) = Real.sqrt (y ^ 2 + sommeCarres ys) := by
        simp [norme, sommeCarres]
      rw [h1, h2, h3]
      calc |x * y + sommeProduits xs ys|
          ≤ |x * y| + |sommeProduits xs ys| := abs_add _ _
        _ = |x| * |y| + |sommeProduits xs ys| := by rw [abs_mul]
        _ ≤ |x| * |y| + norme xs * norme ys := by linarith [ih ys]
        _ ≤ Real.sqrt (x ^ 2 + sommeCarres xs) * Real.sqrt (y ^ 2 + sommeCarres ys) :=
            etapeCauchySchwarz x y _ _ (sommeCarres_nonneg xs) (sommeCarres_nonneg ys)

theorem abs_cos_le_un (v1 v2 : List ℝ) :
    |calculer_similarite_cosinus v1 v2| ≤ 1 := by
  unfold calculer_similarite_cosinus
  split
  · simp
  · split
    · simp
    · next hlen hz =>
      push_neg at hz
      have h1 : 0 < norme v1 := lt_of_le_of_ne (norme_nonneg v1) (Ne.symm hz.1)
      have h2 : 0 < norme v2 := lt_of_le_of_ne (norme_nonneg v2) (Ne.symm hz.2)
      rw [abs_div, abs_of_pos (mul_pos h1 h2)]
      rw [div_le_one (mul_pos h1 h2)]
      exact abs_sommeProduits_le v1 v2

theorem cos_borne (v1 v2 : List ℝ) :
    -1 ≤ calculer_similarite_cosinus v1 v2 ∧
      calculer_similarite_cosinus v1 v2 ≤ 1 :=
  abs_le.mp (abs_cos_le_un v1 v2)

theorem cos_symetrique (v1 v2 : List ℝ) :
    calculer_similarite_cosinus v1 v2 = calculer_similarite_cosinus v2 v1 := by
  unfold calculer_similarite_cosinus
  have hd : sommeProduits v1 v2 = sommeProduits v2 v1 := by
    unfold sommeProduits
    rw [List.zipWith_comm_of_comm]
    exact fun x y => mul_comm x y
  split_ifs with h1 h2 h3 h4 h5 <;>
    first
      | rfl
      | (exfalso; tauto)
      | (rw [hd, mul_comm])

theorem cos_norme_zero (v1 v2 : List ℝ)
    (h : norme v1 = 0 ∨ norme v2 = 0) :
    calculer_similarite_cosinus v1 v2 = 0 := by
  unfold calculer_similarite_cosinus
  split_ifs with h1 <;> rfl

/-! ## Lemmas about retrieval -/

theorem annoter_eq_none (minScore : ℝ) (emb : String → Option (List ℝ))
    (qv : List ℝ) (d : Document)
    (hemb : emb (texteEmbeddingDocument d) = none) :
    annoterDocument minScore emb qv d = d := by
  unfold annoterDocument
  rw [hemb]

theorem annoter_eq_some (minScore : ℝ) (emb : String → Option (List ℝ))
    (qv dv : List ℝ) (d : Document)
    (hemb : emb (texteEmbeddingDocument d) = some dv) :
    annoterDocument minScore emb qv d =
      (if minScore ≤ calculer_similarite_cosinus qv dv then
        { d with score := some (calculer_similarite_cosinus qv dv),
                 score_type := some "semantique" }
      else d) := by
  unfold annoterDocument
  rw [hemb]

theorem annoter_conserve_champs (minScore : ℝ) (emb : String → Option (List ℝ))
    (qv : List ℝ) (d : Document) :
    (annoterDocument minScore emb qv d).titre_source = d.titre_source ∧
    (annoterDocument minScore emb qv d).contenu = d.contenu ∧
    (annoterDocument minScore emb qv d).source_url = d.source_url := by
  cases hemb : emb (texteEmbeddingDocument d) with
  | none => rw [annoter_eq_none _ _ _ _ hemb]; exact ⟨rfl, rfl, rfl⟩
  | some dv =>
    rw [annoter_eq_some _ _ _ _ _ hemb]
    split
    · exact ⟨rfl, rfl, rfl⟩
    · exact ⟨rfl, rfl, rfl⟩

theorem mem_documentsRetenus (minScore : ℝ) (emb : String → Option (List ℝ))
    (qv : List ℝ) (docs : List Document) (d : Document)
    (hd : d ∈ documentsRetenus minScore emb qv docs) :
    ∃ a ∈ docs, ∃ dv, emb (texteEmbeddingDocument a) = some dv ∧
      minScore ≤ calculer_similarite_cosinus qv dv ∧
      d = { a with score := some (calculer_similarite_cosinus qv dv),
                   score_type := some "semantique" } := by
  unfold documentsRetenus at hd
  rcases List.mem_filterMap.mp hd with ⟨a, ha, hfa⟩
  cases hemb : emb (texteEmbeddingDocument a) with
  | none => rw [hemb] at hfa; cases hfa
  | some dv =>
    rw [hemb] at hfa
    have hfa2 : (if minScore ≤ calculer_similarite_cosinus qv dv then
        some { a with score := some (calculer_similarite_cosinus qv dv),
                      score_type := some "semantique" }
      else (none : Option Document)) = some d := hfa
    by_cases hsc : minScore ≤ calculer_similarite_cosinus qv dv
    · rw [if_pos hsc] at hfa2
      exact ⟨a, ha, dv, hemb, hsc, (Option.some.inj hfa2).symm⟩
    · rw [if_neg hsc] at hfa2
      cases hfa2

/-! ## Concrete cosine values -/

theorem norme_singleton (x : ℝ) : norme [x] = |x| := by
  unfold norme sommeCarres
  simp [Real.sqrt_sq_eq_abs]

theorem cos_singletons (x y : ℝ) (hx : x ≠ 0) (hy : y ≠ 0) :
    calculer_similarite_cosinus [x] [y] = (x * y) / (|x| * |y|) := by
  unfold calculer_similarite_cosinus
  rw [if_neg (by simp), norme_singleton, norme_singleton,
    if_neg (by simp [hx, hy])]
  unfold sommeProduits
  simp

theorem cos_un_un : calculer_similarite_cosinus [(1:ℝ)] [1] = 1 := by
  rw [cos_singletons 1 1 (by norm_num) (by norm_num)]
  norm_num

theorem cos_un_moins_un : calculer_similarite_cosinus [(1:ℝ)] [-1] = -1 := by
  rw [cos_singletons 1 (-1) (by norm_num) (by norm_num)]
  norm_num

/-! ## Claim C1 -/

/-- C1, counterexample: the claim "if the rule-based keyword evidence is
unambiguous the router returns with method=rules and never invokes the LLM
classifier" is false on the code: for the query "c'est quoi la tva ?"
(keyword evidence hits exactly the `fiscalite` keyword set), the classifier
still performs its `model.generate_content` call — the call happens
unconditionally before any keyword matching. -/
theorem C1_contre_exemple :
    ¬ AffirmationC1 ∧
    (agents_touches "c'est quoi la tva ?").length = 1 ∧
    (classifier_question (some "fiscalite") "c'est quoi la tva ?").appels_llm = 1 := by
  refine ⟨?_, by decide, by decide⟩
  intro h
  have hq := h (some "fiscalite") "c'est quoi la tva ?"
    ((by decide : (agents_touches "c'est quoi la tva ?").length = 1))
  exact absurd hq (by decide)

/-- C1, amended: `classifier_question` invokes the external LLM classifier
exactly once on every query, whatever the keyword evidence; the keyword
rules are only consulted afterwards, as a fallback when the LLM output is
unrecognised or the call raises.  There is no rules-first short circuit. -/
theorem C1_amende (llm : Option String) (question : String) :
    (classifier_question llm question).appels_llm = 1 := by
  cases llm with
  | none =>
    dsimp only [classifier_question]
    split_ifs <;> rfl
  | some texte =>
    dsimp only [classifier_question]
    split_ifs <;> rfl

/-! ## Claim C2 -/

/-- C2, counterexample: the claim "the invoker retries on timeout (with
exponential backoff, up to maxRetries) before giving up" is false on the
code: with a transport that times out on every attempt, the configured
agent `fiscalite` sees exactly one post — `appeler_agent_specialise`
returns its timeout envelope immediately, with no retry and no raised
`AgentUnreachableError`. -/
theorem C2_contre_exemple :
    ¬ AffirmationC2 ∧
    (appeler_agent_specialise (fun _ _ _ => .timeout) [] true
      "fiscalite" "Question").appels_http = 1 ∧
    (appeler_agent_specialise (fun _ _ _ => .timeout) [] true
      "fiscalite" "Question").resultat =
      [("erreur", .str "Timeout"),
       ("reponse", .str "La requête a pris trop de temps. Veuillez réessayer.")] := by
  refine ⟨?_, rfl, rfl⟩
  intro h
  have hq := h "fiscalite" "Question" (fun _ _ _ => .timeout) [] true
    (by decide) (fun _ _ _ => rfl)
  have he : (appeler_agent_specialise (fun _ _ _ => .timeout) [] true
      "fiscalite" "Question").appels_http = 1 := rfl
  rw [he] at hq
  exact absurd hq (by norm_num)

/-- C2, amended: `appeler_agent_specialise` performs at most one HTTP post
per call (exactly one when the agent is configured and authenticated); on a
timeout it returns the `{"erreur": "Timeout", ...}` envelope immediately,
without retrying and without raising; on an HTTP 403 it returns the
access-denied envelope, also without retrying. -/
theorem C2_amende (http : String → Dict → Nat → ReponseHTTP) (infos : Dict)
    (session_ok : Bool) (agent_name question : String) :
    (appeler_agent_specialise http infos session_ok agent_name
        question).appels_http ≤ 1 ∧
    (http "https://us-west1-agent-gcp-f6005.cloudfunctions.net/agent-fiscal-v2"
        [("question", .str question)] 0 = .timeout →
      appeler_agent_specialise http infos session_ok "fiscalite" question =
        ⟨[("erreur", .str "Timeout"),
          ("reponse", .str "La requête a pris trop de temps. Veuillez réessayer.")], 1⟩) ∧
    (∀ corps,
      http "https://us-west1-agent-gcp-f6005.cloudfunctions.net/agent-fiscal-v2"
          [("question", .str question)] 0 = .statut 403 corps →
      appeler_agent_specialise http infos session_ok "fiscalite" question =
        ⟨[("erreur", .str "Accès refusé (403)"),
          ("reponse", .str "L'agent client n'a pas les permissions pour accéder à cet agent. Vérifiez les permissions IAM.")], 1⟩) := by
  refine ⟨?_, ?_, ?_⟩
  · unfold appeler_agent_specialise
    split
    · exact Nat.zero_le 1
    · dsimp only
      split_ifs
      all_goals repeat' split
      all_goals first | exact Nat.le_refl 1 | exact Nat.zero_le 1
  · intro hhttp
    unfold appeler_agent_specialise
    have hc : (["juridique", "aides", "comptabilite",
        "ressources_humaines"].contains "fiscalite") = false := by decide
    simp only [AGENTS_CONFIG, List.find?, String.reduceBEq, Option.map_some',
      hc, Bool.false_and, Bool.false_eq_true, if_false]
    rw [hhttp]
  · intro corps hhttp
    unfold appeler_agent_specialise
    have hc : (["juridique", "aides", "comptabilite",
        "ressources_humaines"].contains "fiscalite") = false := by decide
    simp only [AGENTS_CONFIG, List.find?, String.reduceBEq, Option.map_some',
      hc, Bool.false_and, Bool.false_eq_true, if_false]
    rw [hhttp]
    rfl

/-! ## Claim C3 -/

/-- C3, counterexample: the claim "if the refetch fails, the stale cached
snapshot is served when one exists" is false on the code: with a non-empty
expired cache and a failing GCS listing, `charger_documents_depuis_gcs`
returns the empty list built by the aborted loop, not the cached
snapshot — the stale documents stay in `_documents_cache` but are not
served. -/
theorem C3_contre_exemple :
    ¬ AffirmationC3 ∧
    (charger_documents_depuis_gcs ⟨[{}], some 100⟩ 4000 (.echec [])).1 = [] ∧
    (⟨[{}], some 100⟩ : CorpusState).documents_cache = [{}] := by
  have hc : ¬((4000 : ℚ) - 100 < CACHE_DURATION_SECONDS) := by
    norm_num [CACHE_DURATION_SECONDS]
  have he : (charger_documents_depuis_gcs ⟨[{}], some 100⟩ 4000
      (.echec [])).1 = [] := by
    unfold charger_documents_depuis_gcs
    simp [decide_eq_false hc]
  refine ⟨?_, he, rfl⟩
  intro h
  have hq := h ⟨[{}], some 100⟩ 4000 [] (by simp)
  rw [he] at hq
  simp at hq

/-- C3, amended: (i) with a non-empty cache and a fresh non-zero timestamp
(`now - lastLoad < TTL`), `charger_documents_depuis_gcs` returns the cached
snapshot unchanged without attempting a refetch; (ii) when the TTL has
expired and the refetch fails, it returns the documents accumulated before
the failure (empty when the listing fails at once) and leaves the cache
state untouched — an empty corpus can therefore be returned even though a
cached snapshot exists. -/
theorem C3_amende :
    (∀ (etat : CorpusState) (now t : ℚ) (gcs : ResultatGCS),
      etat.documents_cache ≠ [] → etat.cache_timestamp = some t → t ≠ 0 →
      now - t < CACHE_DURATION_SECONDS →
      charger_documents_depuis_gcs etat now gcs =
        (etat.documents_cache, etat, false)) ∧
    (∀ (etat : CorpusState) (now t : ℚ) (partiels : List Document),
      etat.cache_timestamp = some t → ¬(now - t < CACHE_DURATION_SECONDS) →
      charger_documents_depuis_gcs etat now (.echec partiels) =
        (partiels, etat, true)) := by
  constructor
  · intro etat now t gcs hne hts htz httl
    unfold charger_documents_depuis_gcs
    rw [hts]
    have h1 : etat.documents_cache.isEmpty = false := by
      cases h' : etat.documents_cache with
      | nil => exact absurd h' hne
      | cons a l => rfl
    have h2 : (t != 0) = true := bne_iff_ne.mpr htz
    simp [h1, h2, decide_eq_true httl]
  · intro etat now t partiels hts httl
    unfold charger_documents_depuis_gcs
    rw [hts]
    simp [decide_eq_false httl]

/-! ## Claim C4 -/

theorem pyTronquer_length (t : String) (h : 2000 ≤ t.length) :
    (pyTronquer t).length = 4005 := by
  have h5 : (" ... ").data.length = 5 := rfl
  show (t.data.take 2000 ++ (" ... ").data ++
    t.data.drop (t.data.length - 2000)).length = 4005
  rw [List.length_append, List.length_append, List.length_take,
    List.length_drop, h5]
  have hd : t.data.length = t.length := rfl
  rw [hd]
  omega

/-- C4, code bug: `obtenir_embedding` looks the cache up under the raw text
(line 118) but stores under the truncated text (line 127), so for a text
longer than 5000 characters the memoization never takes effect: here the
5001-character text is embedded twice — the second call invokes the
external provider again (`appels = 1`) instead of serving the cached
vector (`appels = 0`), contradicting both the claim and the function's own
caching intent. -/
theorem C4_bogue_cle_cache :
    (obtenir_embedding (fun _ => some 0) ([] : List (String × Nat))
        ⟨List.replicate 5001 'a'⟩).2.2 = 1 ∧
    (obtenir_embedding (fun _ => some 0)
        ((obtenir_embedding (fun _ => some 0) ([] : List (String × Nat))
          ⟨List.replicate 5001 'a'⟩).2.1)
        ⟨List.replicate 5001 'a'⟩).2.2 = 1 := by
  have hlen : (⟨List.replicate 5001 'a'⟩ : String).length = 5001 := by
    show (List.replicate 5001 'a').length = 5001
    rw [List.length_replicate]
  have htrunclen :
      (pyTronquer ⟨List.replicate 5001 'a'⟩).length = 4005 :=
    pyTronquer_length _ (by rw [hlen]; norm_num)
  have hne : (pyTronquer ⟨List.replicate 5001 'a'⟩ ==
      (⟨List.replicate 5001 'a'⟩ : String)) = false := by
    apply beq_eq_false_iff_ne.mpr
    intro hcontra
    have hl := congrArg String.length hcontra
    rw [htrunclen, hlen] at hl
    exact absurd hl (by norm_num)
  have h1 : obtenir_embedding (fun _ => some 0) ([] : List (String × Nat))
      ⟨List.replicate 5001 'a'⟩ =
      (some 0, [(pyTronquer ⟨List.replicate 5001 'a'⟩, 0)], 1) := by
    unfold obtenir_embedding
    simp only [List.find?, Option.map_none']
    rw [if_pos (show 5000 < (⟨List.replicate 5001 'a'⟩ : String).length by
      rw [hlen]; norm_num)]
    rfl
  have h2 : (obtenir_embedding (fun _ => some 0)
      [(pyTronquer ⟨List.replicate 5001 'a'⟩, 0)]
      ⟨List.replicate 5001 'a'⟩).2.2 = 1 := by
    have hp : ((pyTronquer ⟨List.replicate 5001 'a'⟩, (0:Nat)).1 ==
        (⟨List.replicate 5001 'a'⟩ : String)) = false := hne
    have hfind : ([(pyTronquer ⟨List.replicate 5001 'a'⟩, 0)] :
        List (String × Nat)).find?
        (fun p => p.1 == (⟨List.replicate 5001 'a'⟩ : String)) = none := by
      rw [List.find?_cons_of_neg _ (by rw [hp]; exact Bool.false_ne_true)]
      rfl
    unfold obtenir_embedding
    rw [hfind]
    rfl
  have hC : (obtenir_embedding (fun _ => some 0) ([] : List (String × Nat))
      ⟨List.replicate 5001 'a'⟩).2.1 =
      [(pyTronquer ⟨List.replicate 5001 'a'⟩, 0)] := by rw [h1]
  constructor
  · rw [h1]
  · rw [hC]
    exact h2

/-! ## Claim C5 -/

/-- C5, counterexample: the claim "retrieval only reads the corpus
documents and never mutates them" is false on the code: scoring writes
`doc['score']` and `doc['score_type']` into the shared corpus dicts
(agent_fiscal_v2.py:181-182), so after one retrieval over a one-document
corpus the snapshot differs from what was loaded. -/
theorem C5_contre_exemple :
    ¬ AffirmationC5 ∧
    (((rechercher_documents_semantique (fun _ => some [(1:ℝ)]) [{}]
      "q" 3).2).headI).score = some 1 ∧
    (({} : Document)).score = none := by
  have hann : annoterDocument MIN_SIMILARITY_SCORE (fun _ => some [(1:ℝ)])
      [1] {} =
      { ({} : Document) with
          score := some (calculer_similarite_cosinus [1] [1]),
          score_type := some "semantique" } := by
    rw [annoter_eq_some _ _ _ _ _ rfl]
    rw [if_pos (by rw [cos_un_un]; unfold MIN_SIMILARITY_SCORE; norm_num)]
  have h2 : (rechercher_documents_semantique (fun _ => some [(1:ℝ)]) [{}]
      "q" 3).2 =
      [annoterDocument MIN_SIMILARITY_SCORE (fun _ => some [(1:ℝ)]) [1] {}] := rfl
  refine ⟨?_, ?_, rfl⟩
  · intro h
    have hq := h (fun _ => some [(1:ℝ)]) [{}] "q" 3
    rw [h2, hann] at hq
    have h4 : ({ ({} : Document) with
        score := some (calculer_similarite_cosinus [1] [1]),
        score_type := some "semantique" }) = ({} : Document) := by
      injection hq
    have h5 := congrArg Document.score h4
    simp at h5
  · rw [h2, hann]
    show some (calculer_similarite_cosinus [1] [1]) = some 1
    rw [cos_un_un]

/-- C5, amended: retrieval leaves the content of every corpus document
intact — titles, bodies and source URLs are unchanged, document for
document — but it does annotate matching documents in place, writing their
`score` and `score_type` fields into the shared snapshot. -/
theorem C5_amende (emb : String → Option (List ℝ)) (docs : List Document)
    (question : String) (max_docs : Nat) :
    List.Forall₂ (fun a b => a.titre_source = b.titre_source ∧
        a.contenu = b.contenu ∧ a.source_url = b.source_url)
      docs ((rechercher_documents_semantique emb docs question max_docs).2) := by
  unfold rechercher_documents_semantique rechercherCore
  cases hq : emb question with
  | none => exact List.forall₂_same.mpr (fun x _ => ⟨rfl, rfl, rfl⟩)
  | some qv =>
    dsimp only
    by_cases hv : docs.isEmpty = true
    · rw [if_pos hv]
      exact List.forall₂_same.mpr (fun x _ => ⟨rfl, rfl, rfl⟩)
    · rw [if_neg hv]
      show List.Forall₂ _ docs
        (docs.map (annoterDocument MIN_SIMILARITY_SCORE emb qv))
      rw [List.forall₂_map_right_iff]
      refine List.forall₂_same.mpr (fun x _ => ?_)
      exact ⟨(annoter_conserve_champs _ _ _ _).1.symm,
        (annoter_conserve_champs _ _ _ _).2.1.symm,
        (annoter_conserve_champs _ _ _ _).2.2.symm⟩

/-! ## Claim C6 -/

theorem mem_resultat_recherche (minScore : ℝ) (emb : String → Option (List ℝ))
    (docs : List Document) (question : String) (k : Nat) (d : Document)
    (hd : d ∈ (rechercherCore minScore emb docs question k).1) :
    ∃ qv, emb question = some qv ∧
      d ∈ documentsRetenus minScore emb qv docs := by
  unfold rechercherCore at hd
  cases hq : emb question with
  | none =>
    rw [hq] at hd
    exact absurd hd (List.not_mem_nil d)
  | some qv =>
    rw [hq] at hd
    have hd2 : d ∈ (if docs.isEmpty = true then (([] : List Document), docs)
        else ((triParScore (documentsRetenus minScore emb qv docs)).take k,
          docs.map (annoterDocument minScore emb qv))).1 := hd
    by_cases hv : docs.isEmpty = true
    · rw [if_pos hv] at hd2
      exact absurd hd2 (List.not_mem_nil d)
    · rw [if_neg hv] at hd2
      have hd3 : d ∈ (triParScore (documentsRetenus minScore emb qv docs)).take k :=
        hd2
      exact ⟨qv, rfl,
        ((triParScore_perm _).mem_iff).mp (List.mem_of_mem_take hd3)⟩

/-- C6, confirmed: the retrieval contract.  With a successful query
embedding, the result of `rechercherCore` (the body of
`rechercher_documents_semantique`, parameterised by the threshold read from
`MIN_SIMILARITY_SCORE`) is sorted by descending score, has length at most
`k`, contains only documents scored `≥ minScore` — each scored by cosine
similarity between the query embedding and the embedding of its weighted
representation (`texteEmbeddingDocument`: title three times then the first
1000 characters of the body) — with equal-score ties kept in original
corpus order (the stable sort leaves the relative order of any fixed score
value unchanged), the result being the `k`-prefix of the stable descending
sort of the retained documents. -/
theorem C6_contrat_recherche (minScore : ℝ) (emb : String → Option (List ℝ))
    (docs : List Document) (question : String) (k : Nat) (qv : List ℝ)
    (hq : emb question = some qv) :
    List.Sorted (fun a b => scoreCle b ≤ scoreCle a)
      ((rechercherCore minScore emb docs question k).1) ∧
    (rechercherCore minScore emb docs question k).1.length ≤ k ∧
    (∀ d ∈ (rechercherCore minScore emb docs question k).1,
      ∃ dv, emb (texteEmbeddingDocument d) = some dv ∧
        d.score = some (calculer_similarite_cosinus qv dv) ∧
        minScore ≤ calculer_similarite_cosinus qv dv) ∧
    (∀ v : ℝ,
      (triParScore (documentsRetenus minScore emb qv docs)).filter
          (fun d => decide (scoreCle d = v)) =
        (documentsRetenus minScore emb qv docs).filter
          (fun d => decide (scoreCle d = v))) ∧
    (docs.isEmpty = false →
      (rechercherCore minScore emb docs question k).1 =
        (triParScore (documentsRetenus minScore emb qv docs)).take k) := by
  have hres : docs.isEmpty = false →
      (rechercherCore minScore emb docs question k).1 =
        (triParScore (documentsRetenus minScore emb qv docs)).take k := by
    intro hv
    unfold rechercherCore
    rw [hq]
    show (if docs.isEmpty = true then (([] : List Document), docs)
      else ((triParScore (documentsRetenus minScore emb qv docs)).take k,
        docs.map (annoterDocument minScore emb qv))).1 = _
    rw [if_neg (by rw [hv]; exact Bool.false_ne_true)]
  have hmem1 : ∀ d ∈ (rechercherCore minScore emb docs question k).1,
      ∃ dv, emb (texteEmbeddingDocument d) = some dv ∧
        d.score = some (calculer_similarite_cosinus qv dv) ∧
        minScore ≤ calculer_similarite_cosinus qv dv := by
    intro d hd
    rcases mem_resultat_recherche minScore emb docs question k d hd with
      ⟨qv', hq', hmem⟩
    rw [hq] at hq'
    have hqv : qv' = qv := (Option.some.inj hq').symm
    subst hqv
    rcases mem_documentsRetenus minScore emb qv' docs d hmem with
      ⟨a, _, dv, hemb, hsc, hdef⟩
    refine ⟨dv, ?_, ?_, hsc⟩
    · rw [hdef]; exact hemb
    · rw [hdef]
  have hsorted : List.Sorted (fun a b => scoreCle b ≤ scoreCle a)
      ((rechercherCore minScore emb docs question k).1) := by
    by_cases hv : docs.isEmpty = true
    · unfold rechercherCore
      rw [hq]
      show List.Sorted _ ((if docs.isEmpty = true
        then (([] : List Document), docs)
        else ((triParScore (documentsRetenus minScore emb qv docs)).take k,
          docs.map (annoterDocument minScore emb qv))).1)
      rw [if_pos hv]
      exact List.sorted_nil
    · rw [hres (Bool.not_eq_true _ ▸ hv)]
      exact List.Pairwise.sublist (List.take_sublist _ _) (triParScore_trie _)
  have hlen : (rechercherCore minScore emb docs question k).1.length ≤ k := by
    by_cases hv : docs.isEmpty = true
    · unfold rechercherCore
      rw [hq]
      show ((if docs.isEmpty = true then (([] : List Document), docs)
        else ((triParScore (documentsRetenus minScore emb qv docs)).take k,
          docs.map (annoterDocument minScore emb qv))).1).length ≤ k
      rw [if_pos hv]
      exact Nat.zero_le k
    · rw [hres (Bool.not_eq_true _ ▸ hv)]
      exact List.length_take_le _ _
  exact ⟨hsorted, hlen, hmem1, fun v => triParScore_stable _ v, hres⟩

/-! ## Claim C7 -/

/-- C7, counterexample: the claim "the cosine score lies in [0,1] for
non-degenerate vectors" is false on the code: the vectors `[1]` and `[-1]`
have non-zero norms and `calculer_similarite_cosinus [1] [-1] = -1`, which
is below 0. -/
theorem C7_contre_exemple :
    ¬ AffirmationC7 ∧
    calculer_similarite_cosinus [(1:ℝ)] [-1] = -1 ∧
    norme [(1:ℝ)] = 1 ∧ norme [(-1:ℝ)] = 1 := by
  refine ⟨?_, cos_un_moins_un, by rw [norme_singleton]; norm_num,
    by rw [norme_singleton]; norm_num⟩
  intro h
  have h1 : norme [(1:ℝ)] ≠ 0 := by rw [norme_singleton]; norm_num
  have h2 : norme [(-1:ℝ)] ≠ 0 := by rw [norme_singleton]; norm_num
  have hb := (h [1] [-1] h1 h2).1
  rw [cos_un_moins_un] at hb
  norm_num at hb

/-- C7, amended: `calculer_similarite_cosinus` is symmetric, returns 0
whenever either vector has zero norm, and is bounded in [-1, 1] (not
[0, 1]: Cauchy-Schwarz bounds its absolute value); nevertheless every
`score` carried by a document returned by
`rechercher_documents_semantique` lies in [0, 1], because retrieval keeps
only scores at least `MIN_SIMILARITY_SCORE = 0.3` and cosine never exceeds
1. -/
theorem C7_amende :
    (∀ v1 v2 : List ℝ,
      calculer_similarite_cosinus v1 v2 = calculer_similarite_cosinus v2 v1) ∧
    (∀ v1 v2 : List ℝ, norme v1 = 0 ∨ norme v2 = 0 →
      calculer_similarite_cosinus v1 v2 = 0) ∧
    (∀ v1 v2 : List ℝ, -1 ≤ calculer_similarite_cosinus v1 v2 ∧
      calculer_similarite_cosinus v1 v2 ≤ 1) ∧
    (∀ (emb : String → Option (List ℝ)) (docs : List Document)
      (question : String) (k : Nat) (d : Document) (s : ℝ),
      d ∈ (rechercher_documents_semantique emb docs question k).1 →
      d.score = some s → 0 ≤ s ∧ s ≤ 1) := by
  refine ⟨cos_symetrique, cos_norme_zero, cos_borne, ?_⟩
  intro emb docs question k d s hd hs
  have hd' : d ∈ (rechercherCore MIN_SIMILARITY_SCORE emb docs question k).1 := hd
  rcases mem_resultat_recherche MIN_SIMILARITY_SCORE emb docs question k d hd'
    with ⟨qv, _, hmem⟩
  rcases mem_documentsRetenus MIN_SIMILARITY_SCORE emb qv docs d hmem with
    ⟨a, _, dv, _, hsc, hdef⟩
  have hscore : d.score = some (calculer_similarite_cosinus qv dv) := by
    rw [hdef]
  rw [hscore] at hs
  have hs' : calculer_similarite_cosinus qv dv = s := Option.some.inj hs
  rw [← hs']
  have hmin : (3:ℝ)/10 ≤ calculer_similarite_cosinus qv dv := hsc
  constructor
  · linarith
  · exact (cos_borne qv dv).2

/-! ## Claim C8 -/

/-- C8, counterexample: the claim "every text field beginning or ending
with a code-fence marker has the fence stripped" is false on the code: the
cleaning only treats the `reponse` and `message` fields, so a fenced value
under any other key — here `autre` — survives normalization verbatim,
fence included. -/
theorem C8_contre_exemple :
    ¬ AffirmationC8 ∧
    nettoyer_reponse [("autre", .str "```x```")] =
      some [("autre", .str "```x```")] ∧
    pyCommencePar "```x```" "```" = true := by
  refine ⟨?_, rfl, by decide⟩
  intro h
  have hq := h [("autre", .str "```x```")] [("autre", .str "```x```")]
    "autre" "```x```" rfl rfl
  exact absurd hq.1 (by decide)

/-- C8, amended: normalization deletes the `handoff` object whenever its
`needed` flag is falsy (leaving no `handoff` key); it strips code fences
only from the `reponse` and `message` fields, leaving every other field
untouched; and the end-to-end payload
`{"handoff": {"needed": false}, "reponse": "```json\n{..}\n```"}`
normalizes to a payload with no `handoff` key and an unfenced `reponse`
string. -/
theorem C8_amende :
    (∀ (d : Dict) (hh : Dict),
      dictGet d "handoff" = some (.obj hh) →
      pyVrai ((dictGet hh "needed").getD (.bool false)) = false →
      ∃ c, nettoyer_reponse d = some c ∧ dictGet c "handoff" = none) ∧
    (∀ (d c : Dict) (k : String),
      nettoyer_reponse d = some c →
      k ≠ "handoff" → k ≠ "reponse" → k ≠ "message" →
      dictGet c k = dictGet d k) ∧
    nettoyer_reponse
        [("handoff", .obj [("needed", .bool false)]),
         ("reponse", .str "```json\n\x7b..\x7d\n```")] =
      some [("reponse", .str "\x7b..\x7d")] := by
  refine ⟨?_, ?_, by rfl⟩
  · intro d hh hg ht
    have h1 : etapeHandoff d = some (dictDel d "handoff") := by
      unfold etapeHandoff
      rw [hg]
      show (if pyVrai ((dictGet hh "needed").getD (.bool false)) = true
        then some d else some (dictDel d "handoff")) = _
      rw [if_neg (by rw [ht]; exact Bool.false_ne_true)]
    refine ⟨etapeChampTexte (etapeChampTexte (dictDel d "handoff") "reponse")
      "message", nettoyer_reponse_via d _ h1, ?_⟩
    rw [etapeChampTexte_get_autre _ _ _ (by decide : ("handoff":String) ≠ "message"),
      etapeChampTexte_get_autre _ _ _ (by decide : ("handoff":String) ≠ "reponse")]
    exact dictGet_del_self d "handoff"
  · intro d c k hnet hk1 hk2 hk3
    cases h1 : etapeHandoff d with
    | none => rw [nettoyer_reponse_absent d h1] at hnet; cases hnet
    | some c1 =>
      rw [nettoyer_reponse_via d c1 h1] at hnet
      have hc := (Option.some.inj hnet).symm
      rw [hc, etapeChampTexte_get_autre _ _ _ hk3,
        etapeChampTexte_get_autre _ _ _ hk2]
      rcases etapeHandoff_cas d c1 h1 with h | h
      · rw [h]
      · rw [h]
        exact dictGet_del_autre d "handoff" k hk1

/-! ## Claim C9 -/

/-- C9, counterexample: the claim "normalization is idempotent" is false on
the code: the fence stripping removes at most one leading and one trailing
```` ``` ```` per pass, so the payload `{"reponse": "x``````"}` cleans to
`{"reponse": "x```"}` after one pass and to `{"reponse": "x"}` after a
second — `normalize(normalize(x)) ≠ normalize(x)`. -/
theorem C9_contre_exemple :
    ¬ AffirmationC9 ∧
    nettoyer_reponse [("reponse", JVal.str "x``````")] =
      some [("reponse", JVal.str "x```")] ∧
    (nettoyer_reponse [("reponse", JVal.str "x``````")]).bind
      nettoyer_reponse = some [("reponse", JVal.str "x")] := by
  have h1 : nettoyer_reponse [("reponse", JVal.str "x``````")] =
      some [("reponse", JVal.str "x```")] := rfl
  have h2 : (nettoyer_reponse [("reponse", JVal.str "x``````")]).bind
      nettoyer_reponse = some [("reponse", JVal.str "x")] := rfl
  refine ⟨?_, h1, h2⟩
  intro h
  have hq := h [("reponse", .str "x``````")]
  rw [h2, h1] at hq
  simp at hq

/-- C9, amended: the handoff-removal step is idempotent, and the whole
normalization is idempotent on every payload whose cleaned `reponse` and
`message` fields no longer begin or end with a code fence; it is not
idempotent in general (see the counterexample, whose cleaned `reponse`
still ends with ```` ``` ````). -/
theorem C9_idempotence_conditionnelle (d c : Dict)
    (hnet : nettoyer_reponse d = some c)
    (hr : champSansBalise c "reponse" = true)
    (hm : champSansBalise c "message" = true) :
    nettoyer_reponse c = some c := by
  cases h1 : etapeHandoff d with
  | none => rw [nettoyer_reponse_absent d h1] at hnet; cases hnet
  | some c1 =>
    rw [nettoyer_reponse_via d c1 h1] at hnet
    have hc := (Option.some.inj hnet).symm
    have hne1 : ("handoff" : String) ≠ "reponse" := by decide
    have hne2 : ("handoff" : String) ≠ "message" := by decide
    have hne3 : ("reponse" : String) ≠ "message" := by decide
    have hHc : dictGet c "handoff" = dictGet c1 "handoff" := by
      rw [hc, etapeChampTexte_get_autre _ _ _ hne2,
        etapeChampTexte_get_autre _ _ _ hne1]
    have hH2 : etapeHandoff c = some c := by
      apply etapeHandoff_de_etat
      rcases etapeHandoff_apres d c1 h1 with hnone | ⟨hh, hg, ht⟩
      · exact Or.inl (hHc.trans hnone)
      · exact Or.inr ⟨hh, hHc.trans hg, ht⟩
    have hR : etapeChampTexte c "reponse" = c := by
      apply passe_champ_fixe c1 c "reponse" _ _ hr
      · rw [hc, etapeChampTexte_get_autre _ _ _ hne3]
      · intro v hv
        rw [hc]
        exact valeursCle_champTexte _ _ _ _ hne3 hv
    have hM : etapeChampTexte c "message" = c := by
      apply passe_champ_fixe (etapeChampTexte c1 "reponse") c "message" _ _ hm
      · rw [hc]
      · intro v hv
        rw [hc]
        exact hv
    rw [nettoyer_reponse_via c c hH2, hR, hM]

/-! ## Claim C10 -/

/-- C10, confirmed: assembling a context from an empty ranked-document list
returns the fixed sentinel string "Aucun document." for every length
budget, and on an empty retrieval result `handle_question` returns its "no
documents" envelope without attempting answer generation (zero
`generer_reponse` invocations — neither the context assembler nor the
generator runs). -/
theorem C10_contexte_vide :
    (∀ N : Nat, construireContexteCore N [] = "Aucun document.") ∧
    (∀ (emb : String → Option (List ℝ)) (all_docs : List Document)
      (llm : Option String) (question : String),
      (rechercher_documents_semantique emb all_docs question MAX_DOCUMENTS).1 = [] →
      handle_question emb all_docs llm question =
        (.aucunDocument question
          "## Aucun document\n\nDésolé, aucune information pertinente trouvée."
          [] 0, 0)) := by
  constructor
  · intro N
    rfl
  · intro emb all_docs llm question hvide
    unfold handle_question
    rw [hvide]
    rfl

/-- Witness for C6: the retrieval contract instantiated at a concrete
one-document corpus and a constant embedding oracle, the hypothesis
`emb "q" = some [1]` discharged by computation. -/
theorem C6_contrat_recherche_temoin :
    List.Sorted (fun a b => scoreCle b ≤ scoreCle a)
      ((rechercherCore 0 (fun _ => some [(1:ℝ)]) [{}] "q" 3).1) ∧
    (rechercherCore 0 (fun _ => some [(1:ℝ)]) [{}] "q" 3).1.length ≤ 3 ∧
    (∀ d ∈ (rechercherCore 0 (fun _ => some [(1:ℝ)]) [{}] "q" 3).1,
      ∃ dv, (fun _ : String => some [(1:ℝ)]) (texteEmbeddingDocument d) = some dv ∧
        d.score = some (calculer_similarite_cosinus [1] dv) ∧
        (0:ℝ) ≤ calculer_similarite_cosinus [1] dv) ∧
    (∀ v : ℝ,
      (triParScore (documentsRetenus 0 (fun _ => some [(1:ℝ)]) [1] [{}])).filter
          (fun d => decide (scoreCle d = v)) =
        (documentsRetenus 0 (fun _ => some [(1:ℝ)]) [1] [{}]).filter
          (fun d => decide (scoreCle d = v))) ∧
    (([({} : Document)] : List Document).isEmpty = false →
      (rechercherCore 0 (fun _ => some [(1:ℝ)]) [{}] "q" 3).1 =
        (triParScore (documentsRetenus 0 (fun _ => some [(1:ℝ)]) [1] [{}])).take 3) :=
  C6_contrat_recherche 0 (fun _ => some [(1:ℝ)]) [{}] "q" 3 [1] rfl

/-- Witness for C9: the conditional idempotence applied to a concrete
payload with a falsy handoff and a fence-free answer; all three hypotheses
are discharged by computation. -/
theorem C9_idempotence_conditionnelle_temoin :
    nettoyer_reponse [("handoff", JVal.obj [("needed", JVal.bool false)]),
        ("reponse", JVal.str "bonjour")] =
      some [("reponse", JVal.str "bonjour")] ∧
    nettoyer_reponse [("reponse", JVal.str "bonjour")] =
      some [("reponse", JVal.str "bonjour")] :=
  ⟨rfl, C9_idempotence_conditionnelle
    [("handoff", JVal.obj [("needed", JVal.bool false)]),
     ("reponse", JVal.str "bonjour")]
    [("reponse", JVal.str "bonjour")] rfl rfl rfl⟩
